import Mathlib

/-!
Verification development for the airline customer analytics repository.

The ETL feature builder (`src/etl/customer_features.py`) is embedded as
functions over lists of records; calendar dates with day = 1 are encoded as
the month index `year * 12 + month`, so that the source's
`months_diff(later, earlier) = (later.year - earlier.year) * 12 +
(later.month - earlier.month)` is exactly subtraction of indices, and (for
the in-range months the source accepts, `1 ≤ month ≤ 12`) chronological
order of the dates coincides with the order of the indices.

Pandas `NaN` / missing cells are modelled as `Option`; operations that raise
in pandas (integer casts of columns containing `NaN`, `qcut` with duplicate
bin edges, assembling a datetime from an out-of-range month) are modelled
with `Except`.  In-place mutation of the two input dataframes (the source
assigns derived columns directly onto its arguments) is modelled by
returning the post-state of both tables alongside the result: derived
columns are `Option`-valued fields that are `none` on ingest and become
`some _` when the corresponding assignment has run.
-/

/- Batteries marks the `Rat` field operations `@[irreducible]`; restore
default reducibility inside this development so concrete quintile
computations can be evaluated by `decide`. -/
attribute [local semireducible] Rat.add Rat.mul Rat.inv Rat.sub Rat.ofScientific

/-- One Flight-Activity record (`cfa_df` row).  `activity_date` is the
derived column assigned by `build_customer_features` line 33; it is `none`
on ingest. -/
structure CFARow where
  loyalty_number : Int
  year : Int
  month : Int
  total_flights : Int
  distance : Int
  activity_date : Option Int := none
deriving Repr, DecidableEq

/-- One Loyalty-History record (`clh_df` row).  The fields after
`cancellation_month` are the derived columns assigned by
`build_customer_features` lines 119-151; they are `none` on ingest. -/
structure CLHRow where
  loyalty_number : Int
  province : String
  city : String
  gender : String
  education : String
  loyalty_card : String
  clv : Int
  enrollment_year : Int
  enrollment_month : Int
  cancellation_year : Option Int := none
  cancellation_month : Option Int := none
  is_cancelled : Option Bool := none
  enrollment_date : Option Int := none
  cancellation_date : Option Int := none
  tenure_end_date : Option Int := none
  tenure_months : Option Int := none
deriving Repr, DecidableEq

/-- One row of the feature table returned by `build_customer_features`
(the `clh_keep` columns of the history table left-merged with `rfm_df`).
The RFM columns are `Option`-valued because a history customer with no
activity rows has no matching `rfm_df` row and gets missing values from
the left merge. -/
structure FeatureRow where
  loyalty_number : Int
  province : String
  city : String
  gender : String
  education : String
  loyalty_card : String
  clv : Int
  is_cancelled : Bool
  tenure_months : Int
  recency : Option Int
  r_score : Option Int
  frequency : Option Int
  f_score : Option Int
  monetary : Option Int
  m_score : Option Int
  rfm_segment : Option String
deriving Repr, DecidableEq

/-- Decidable equality of build results, for evaluating the pipeline on
concrete batches. -/
instance : DecidableEq (Except String (List FeatureRow)) := fun a b =>
  match a, b with
  | .error x, .error y => decidable_of_iff (x = y) (by simp)
  | .error _, .ok _ => isFalse (by intro h; cases h)
  | .ok _, .error _ => isFalse (by intro h; cases h)
  | .ok x, .ok y => decidable_of_iff (x = y) (by simp)

/-- `months_diff` (customer_features.py lines 13-14) on month-index encoded
dates: `(later.year - earlier.year) * 12 + (later.month - earlier.month)`
equals the difference of the two month indices. -/
def months_diff (later earlier : Int) : Int := later - earlier

/-- The `activity_date` value assembled on line 33-35 from `year`/`month`
(day = 1), as a month index. -/
def activity_date_of (r : CFARow) : Int := r.year * 12 + r.month

/-- Maximum of a list of integers, `none` on the empty list (pandas
`Series.max()` is `NaN` on an empty series). -/
def listMax : List Int → Option Int
  | [] => none
  | x :: xs =>
    match listMax xs with
    | none => some x
    | some m => some (max x m)

/-- `drop_duplicates` keeping the first occurrence, as pandas does. -/
def dedupFirstAux [DecidableEq α] : List α → List α → List α
  | [], _ => []
  | x :: xs, seen =>
    if x ∈ seen then dedupFirstAux xs seen else x :: dedupFirstAux xs (x :: seen)

/-- `drop_duplicates` keeping the first occurrence, as pandas does. -/
def dedupFirst [DecidableEq α] (l : List α) : List α := dedupFirstAux l []

/-- `assign_rfm_segment` (customer_features.py lines 17-26), verbatim
first-match decision rule. -/
def assign_rfm_segment (r f m : Int) : String :=
  if r ≥ 4 ∧ f ≥ 4 ∧ m ≥ 4 then "Champions"
  else if r ≥ 3 ∧ f ≥ 3 then "Loyal"
  else if r ≤ 2 ∧ f ≥ 3 then "At Risk"
  else if r ≤ 2 ∧ f ≤ 2 then "Dormant"
  else "Potential"

/-- `max_activity_date` (line 36): the latest activity date in the batch. -/
def max_activity_date (cfa : List CFARow) : Option Int :=
  listMax (cfa.map activity_date_of)

/-- `customers` (line 38): the distinct loyalty numbers of the activity
table, first occurrence first. -/
def customers (cfa : List CFARow) : List Int :=
  dedupFirst (cfa.map (·.loyalty_number))

/-- `recent_activity` (lines 40-45) for one customer: the latest
`activity_date` among that customer's rows with `total_flights > 0`
(sorting by date and taking the `last` row of the group picks the maximum
date), `none` when the customer has no such row. -/
def recent_activity_date (cfa : List CFARow) (c : Int) : Option Int :=
  listMax (((cfa.filter (fun r => decide (r.total_flights > 0) &&
    (r.loyalty_number == c)))).map activity_date_of)

/-- The `recency` column of `recent_activity` merged into `customer_recency`
(lines 46-57), before `fillna`: `months_diff(max_activity_date, latest
qualifying date)` when the customer has a qualifying row, else missing. -/
def raw_recency (cfa : List CFARow) (c : Int) : Option Int :=
  match max_activity_date cfa, recent_activity_date cfa c with
  | some mx, some d => some (months_diff mx d)
  | _, _ => none

/-- `max_recency` (line 58): the maximum of the finite recencies (pandas
`max()` skips `NaN`). -/
def max_recency (cfa : List CFARow) : Option Int :=
  listMax ((customers cfa).filterMap (raw_recency cfa))

/-- The `recency` column after `fillna(max_recency + 1)` (lines 59-61).
The value is still missing (and the following `astype("int64")` raises)
exactly when the customer has no qualifying row and no customer in the
batch has one. -/
def recency (cfa : List CFARow) (c : Int) : Option Int :=
  match raw_recency cfa c with
  | some r => some r
  | none => (max_recency cfa).map (· + 1)

/-- `pd.cut(recency, bins=[-1, 1, 3, 6, 12, 24], labels=[5, 4, 3, 2, 1])`
(lines 63-67): right-closed bins, `none` outside `(-1, 24]` (where `cut`
yields `NaN` and the `astype("int64")` raises). -/
def r_score_of (rec : Int) : Option Int :=
  if rec ≤ -1 then none
  else if rec ≤ 1 then some 5
  else if rec ≤ 3 then some 4
  else if rec ≤ 6 then some 3
  else if rec ≤ 12 then some 2
  else if rec ≤ 24 then some 1
  else none

/-- `customer_frequency` (lines 69-71): sum of `total_flights` over all of
the customer's rows. -/
def frequency (cfa : List CFARow) (c : Int) : Int :=
  ((cfa.filter (fun r => r.loyalty_number == c)).map (·.total_flights)).sum

/-- `monetary_distance` (lines 76-80) for one customer: the sum of
`distance` over the rows with `total_flights > 0`, missing when there is no
such row (the customer is absent from the grouped frame). -/
def monetary_raw (cfa : List CFARow) (c : Int) : Option Int :=
  let q := cfa.filter (fun r => decide (r.total_flights > 0) && (r.loyalty_number == c))
  if q.isEmpty then none else some ((q.map (·.distance)).sum)

/-- The `monetary` column after the left merge and `fillna(0)`
(lines 81-88). -/
def monetary_val (cfa : List CFARow) (c : Int) : Int :=
  (monetary_raw cfa c).getD 0

/-- Insertion sort of rationals ascending (pandas sorts the data before
interpolating quantiles). -/
def sortQ (l : List ℚ) : List ℚ := List.insertionSort (· ≤ ·) l

/-- Linear-interpolation quantile of an ascending-sorted list, the
`numpy`/pandas default: position `h = q * (n - 1)`, value
`x[⌊h⌋] + (h - ⌊h⌋) * (x[⌊h⌋ + 1] - x[⌊h⌋])`. -/
def quantileOfSorted (xs : List ℚ) (q : ℚ) : ℚ :=
  let n := xs.length
  let h : ℚ := q * ((n : ℚ) - 1)
  let i : ℤ := ⌊h⌋
  let a := xs.getD i.toNat 0
  let b := xs.getD (i.toNat + 1) a
  a + (h - (i : ℚ)) * (b - a)

/-- The six bin edges `pd.qcut(vals, q=5)` computes: the 0th, 20th, 40th,
60th, 80th and 100th linear-interpolation percentiles of the data. -/
def qcut_edges (vals : List ℚ) : List ℚ :=
  let s := sortQ vals
  [quantileOfSorted s 0, quantileOfSorted s (1/5), quantileOfSorted s (2/5),
   quantileOfSorted s (3/5), quantileOfSorted s (4/5), quantileOfSorted s 1]

/-- `True` when the list has no repeated element.  `qcut` raises
`ValueError: Bin edges must be unique` when the computed edges fail this
check (`duplicates="raise"` is the default). -/
def allDistinct : List ℚ → Bool
  | [] => true
  | x :: xs => xs.all (fun y => y != x) && allDistinct xs

/-- Bin lookup for `qcut` with labels `[1, 2, 3, 4, 5]`: right-closed bins,
first bin closed on the left (`include_lowest=True`), so every in-sample
value receives a label. -/
def qcut_label (es : List ℚ) (v : ℚ) : Int :=
  match es with
  | [_, b1, b2, b3, b4, _] =>
    if v ≤ b1 then 1
    else if v ≤ b2 then 2
    else if v ≤ b3 then 3
    else if v ≤ b4 then 4
    else 5
  | _ => 0

/-- The `f_score` quintile edges (lines 72-74): `qcut` over the frequency
column, which holds one value per distinct activity customer. -/
def frequency_edges (cfa : List CFARow) : List ℚ :=
  qcut_edges ((customers cfa).map (fun c => ((frequency cfa c : Int) : ℚ)))

/-- The `m_score` quintile edges (lines 90-92): `qcut` over the filled
monetary column, one value per distinct activity customer. -/
def monetary_edges (cfa : List CFARow) : List ℚ :=
  qcut_edges ((customers cfa).map (fun c => ((monetary_val cfa c : Int) : ℚ)))

/-- One row of `rfm_df` (lines 94-117): every RFM column for one activity
customer. -/
structure RfmRow where
  loyalty_number : Int
  recency : Int
  r_score : Int
  frequency : Int
  f_score : Int
  monetary : Int
  m_score : Int
  rfm_segment : String
deriving Repr, DecidableEq

/-- The `rfm_df` row built for customer `c` once all the column casts have
succeeded. -/
def mkRfmRow (cfa : List CFARow) (c : Int) : RfmRow :=
  let rec_ := (recency cfa c).getD 0
  let rs := (r_score_of rec_).getD 0
  let f := frequency cfa c
  let mo := monetary_val cfa c
  { loyalty_number := c
    recency := rec_
    r_score := rs
    frequency := f
    f_score := qcut_label (frequency_edges cfa) ((f : Int) : ℚ)
    monetary := mo
    m_score := qcut_label (monetary_edges cfa) ((mo : Int) : ℚ)
    rfm_segment := assign_rfm_segment rs
      (qcut_label (frequency_edges cfa) ((f : Int) : ℚ))
      (qcut_label (monetary_edges cfa) ((mo : Int) : ℚ)) }

/-- Lines 38-117 of `build_customer_features`: the RFM half of the build,
with the pandas failure points in source order — the `astype("int64")` of a
recency column still containing `NaN` (lines 59-61), the `astype("int64")`
of an `r_score` categorical containing `NaN` (lines 63-67), and the two
`qcut` calls with non-unique bin edges (lines 72-74 and 90-92). -/
def rfm_table (cfa : List CFARow) : Except String (List RfmRow) :=
  if (customers cfa).any (fun c => (recency cfa c).isNone) then
    .error "Cannot convert non-finite values (NA or inf) to integer"
  else if (customers cfa).any (fun c => ((recency cfa c).bind r_score_of).isNone) then
    .error "Cannot convert float NaN to integer"
  else if !allDistinct (frequency_edges cfa) then
    .error "Bin edges must be unique"
  else if !allDistinct (monetary_edges cfa) then
    .error "Bin edges must be unique"
  else
    .ok ((customers cfa).map (mkRfmRow cfa))

/-- `pd.to_datetime(dict(year, month, day=1), errors="coerce")` as a month
index: `NaT` (here `none`) when the month is out of range. -/
def month_date (y m : Int) : Option Int :=
  if 1 ≤ m ∧ m ≤ 12 then some (y * 12 + m) else none

/-- The `cancellation_date` column for one row (lines 126-135): `NaT` when
not cancelled; under the cancellation mask, `cancellation_month.astype(int)`
raises if the month is missing, and the assembled date (with
`errors="coerce"`) is `NaT` when the month is out of range. -/
def cancellation_date_of (h : CLHRow) : Except String (Option Int) :=
  if h.cancellation_year.isSome then
    match h.cancellation_year, h.cancellation_month with
    | some cy, some cm => .ok (month_date cy cm)
    | _, _ => .error "Cannot convert non-finite values (NA or inf) to integer"
  else .ok none

/-- Lines 119-151 applied to one history row: derive `is_cancelled`,
`enrollment_date`, `cancellation_date`, `tenure_end_date` (cancellation
date if cancelled else the reference date) and `tenure_months` (month
difference clipped at 0, whose `astype("int32")` raises if either date is
missing). -/
def clh_derive (reference_date : Int) (h : CLHRow) : Except String CLHRow :=
  match cancellation_date_of h with
  | .error e => .error e
  | .ok cdate =>
    match (if h.cancellation_year.isSome then cdate else some reference_date),
        month_date h.enrollment_year h.enrollment_month with
    | some te, some ed =>
      .ok { h with
        is_cancelled := some h.cancellation_year.isSome
        enrollment_date := month_date h.enrollment_year h.enrollment_month
        cancellation_date := cdate
        tenure_end_date := some te
        tenure_months := some (max (months_diff te ed) 0) }
    | _, _ => .error "Cannot convert non-finite values (NA or inf) to integer"

/-- `clh_derive` over the whole history table; the first failing row aborts
the build. -/
def deriveAll (reference_date : Int) : List CLHRow → Except String (List CLHRow)
  | [] => .ok []
  | h :: t =>
    match clh_derive reference_date h with
    | .error e => .error e
    | .ok h2 =>
      match deriveAll reference_date t with
      | .error e => .error e
      | .ok t2 => .ok (h2 :: t2)

/-- The left merge of `clh_small` with `rfm_df` (line 166) for one history
row: the `clh_keep` columns plus the RFM columns of the matching `rfm_df`
row, or missing values when there is none. -/
def mkFeatureRow (h : CLHRow) (t : Option RfmRow) : FeatureRow :=
  { loyalty_number := h.loyalty_number
    province := h.province
    city := h.city
    gender := h.gender
    education := h.education
    loyalty_card := h.loyalty_card
    clv := h.clv
    is_cancelled := h.is_cancelled.getD false
    tenure_months := h.tenure_months.getD 0
    recency := t.map (·.recency)
    r_score := t.map (·.r_score)
    frequency := t.map (·.frequency)
    f_score := t.map (·.f_score)
    monetary := t.map (·.monetary)
    m_score := t.map (·.m_score)
    rfm_segment := t.map (·.rfm_segment) }

/-- `build_customer_features(cfa_df, clh_df)` (lines 29-172), returning the
post-state of both input tables (the source mutates them in place by
assigning derived columns) together with the result.  The line-33
`pd.to_datetime` (no `errors="coerce"`) raises before anything is mutated
when some activity month is out of range; after it, the activity table
carries the `activity_date` column whether or not a later stage raises.
The RFM stage reads exactly the ingested columns plus that derived column,
whose value per row is `activity_date_of`, so it is computed here by
`rfm_table` directly from the base columns. -/
def build_customer_features (cfa : List CFARow) (clh : List CLHRow) :
    List CFARow × List CLHRow × Except String (List FeatureRow) :=
  if cfa.any (fun r => decide (r.month < 1) || decide (12 < r.month)) then
    (cfa, clh, .error "cannot assemble the datetimes")
  else
    let cfa2 := cfa.map (fun r => { r with activity_date := some (activity_date_of r) })
    match rfm_table cfa with
    | .error e => (cfa2, clh, .error e)
    | .ok rfm =>
      match max_activity_date cfa with
      | none => (cfa2, clh, .error "attempt to get argmax of an empty sequence")
      | some mx =>
        match deriveAll mx clh with
        | .error e => (cfa2, clh, .error e)
        | .ok clh2 =>
          (cfa2, clh2, .ok (clh2.map (fun h =>
            mkFeatureRow h (rfm.find? (fun t => t.loyalty_number == h.loyalty_number)))))

/-!
Dashboard models (`src/app/dashboard.py`): the grouped-summary branch of
`compute_operation` (lines 635-667) and the plan sanitizer
(`_sanitize_plan`, lines 1027-1088, with `build_default_plan`,
lines 991-1024).  Python values arriving from the external planner are
untyped; they are modelled by `PyVal`.
-/

/-- One row of the scored customer table as the dashboard sees it.  The
grouping columns are `Option`-valued: pandas `groupby` silently drops rows
whose key is null. -/
structure SliceRow where
  loyalty_number : Int
  province : Option String
  loyalty_card : Option String
  gender : Option String
  rfm_segment : Option String
  clv : ℚ
  churn_score : ℚ
  recency : Int
  frequency : Int
  monetary : Int
  tenure_months : Int
  is_cancelled : Bool
deriving Repr, DecidableEq

/-- The record produced per group by the `SUMMARY_OPS` branch of
`compute_operation` (lines 637-653). -/
structure SummaryRow where
  group : String
  customers : Nat
  avg_clv : ℚ
  median_clv : ℚ
  avg_churn_score : ℚ
  avg_recency_days : ℚ
  avg_frequency : ℚ
  avg_monetary : ℚ
  avg_tenure_months : ℚ
  cancelled_rate : ℚ
  retention_rate : ℚ
deriving Repr, DecidableEq

/-- The four grouped summary operations of `SUMMARY_OPS`
(dashboard.py lines 575-580). -/
inductive SummaryOp
  | by_segment
  | by_province
  | by_card
  | by_gender
deriving Repr, DecidableEq

/-- The grouping column name of each summary operation (`SUMMARY_OPS`). -/
def summary_group_name : SummaryOp → String
  | .by_segment => "rfm_segment"
  | .by_province => "province"
  | .by_card => "loyalty_card"
  | .by_gender => "gender"

/-- The grouping column itself. -/
def summary_group_col : SummaryOp → SliceRow → Option String
  | .by_segment => (·.rfm_segment)
  | .by_province => (·.province)
  | .by_card => (·.loyalty_card)
  | .by_gender => (·.gender)

/-- `Series.nunique()`: the number of distinct values. -/
def nunique [DecidableEq α] (l : List α) : Nat := (dedupFirst l).length

/-- `Series.mean()` of a nonempty column (groups are nonempty by
construction, so the empty case is never hit). -/
def meanQ (xs : List ℚ) : ℚ := xs.sum / (xs.length : ℚ)

/-- `Series.median()`: the 50th linear-interpolation percentile. -/
def medianQ (xs : List ℚ) : ℚ := quantileOfSorted (sortQ xs) (1/2)

/-- The aggregation of lines 639-653 applied to one group. -/
def mkSummaryRow (k : String) (g : List SliceRow) : SummaryRow :=
  { group := k
    customers := nunique (g.map (·.loyalty_number))
    avg_clv := meanQ (g.map (·.clv))
    median_clv := medianQ (g.map (·.clv))
    avg_churn_score := meanQ (g.map (·.churn_score))
    avg_recency_days := meanQ (g.map (fun r => ((r.recency : Int) : ℚ))) * 30
    avg_frequency := meanQ (g.map (fun r => ((r.frequency : Int) : ℚ)))
    avg_monetary := meanQ (g.map (fun r => ((r.monetary : Int) : ℚ)))
    avg_tenure_months := meanQ (g.map (fun r => ((r.tenure_months : Int) : ℚ)))
    cancelled_rate := meanQ (g.map (fun r => if r.is_cancelled then 1 else 0))
    retention_rate := 1 - meanQ (g.map (fun r => if r.is_cancelled then 1 else 0)) }

/-- Lexicographic (code-point) comparison of character lists, the order
pandas uses for string keys; implemented by structural recursion so that
concrete summaries evaluate by `decide` (the core `String.ltb` is defined
on iterators and does not reduce). -/
def charListLe : List Char → List Char → Bool
  | [], _ => true
  | _ :: _, [] => false
  | a :: as, b :: bs =>
    if a.val < b.val then true
    else if b.val < a.val then false
    else charListLe as bs

/-- Lexicographic string comparison built on `charListLe`. -/
def stringLe (s t : String) : Bool := charListLe s.data t.data

/-- The distinct non-null group keys, sorted ascending as pandas `groupby`
(with its default `sort=True`) returns them. -/
def group_keys (op : SummaryOp) (df : List SliceRow) : List String :=
  List.insertionSort (fun a b => stringLe a b = true)
    (dedupFirst (df.filterMap (summary_group_col op)))

/-- The numeric output columns a summary can be sorted by; `sort_by` values
outside `out.columns` fall back to `avg_churn_score` (lines 655-657). -/
def summaryNumCol (s : String) : Option (SummaryRow → ℚ) :=
  if s = "customers" then some (fun r => (r.customers : ℚ))
  else if s = "avg_clv" then some (·.avg_clv)
  else if s = "median_clv" then some (·.median_clv)
  else if s = "avg_churn_score" then some (·.avg_churn_score)
  else if s = "avg_recency_days" then some (·.avg_recency_days)
  else if s = "avg_frequency" then some (·.avg_frequency)
  else if s = "avg_monetary" then some (·.avg_monetary)
  else if s = "avg_tenure_months" then some (·.avg_tenure_months)
  else if s = "cancelled_rate" then some (·.cancelled_rate)
  else if s = "retention_rate" then some (·.retention_rate)
  else none

/-- `max(1, min(top_n, hi))` (lines 659, 670, 681, 1048, 1055, 1060,
1072). -/
def clamp_top_n (tn hi : Int) : Int := max 1 (min tn hi)

/-- The `SUMMARY_OPS` branch of `compute_operation` (lines 635-667): group
by the operation's column (null keys dropped, keys sorted), aggregate,
resolve `sort_by` against the output columns with `avg_churn_score` as the
fallback, sort, and truncate to the clamped `top_n`. -/
def compute_summary (op : SummaryOp) (top_n : Int) (sort_by : String)
    (ascending : Bool) (df : List SliceRow) : List SummaryRow :=
  let rows := (group_keys op df).map (fun k =>
    mkSummaryRow k (df.filter (fun r => summary_group_col op r == some k)))
  let sorted :=
    if sort_by == summary_group_name op then
      if ascending then List.insertionSort (fun a b => stringLe a.group b.group = true) rows
      else List.insertionSort (fun a b => stringLe b.group a.group = true) rows
    else
      let key := (summaryNumCol sort_by).getD (·.avg_churn_score)
      if ascending then List.insertionSort (fun a b => key a ≤ key b) rows
      else List.insertionSort (fun a b => key b ≤ key a) rows
  sorted.take (clamp_top_n top_n 50).toNat

/-- An untyped Python value, as received from `json.loads` of the external
planner's output (or built by the planner-facing code itself). -/
inductive PyVal where
  | str : String → PyVal
  | int : Int → PyVal
  | bool : Bool → PyVal
  | none : PyVal
  | list : List PyVal → PyVal
  | dict : List (String × PyVal) → PyVal

/-- Python truthiness of the modelled values (`None`, `False`, `0`, and
empty strings/lists/dicts are falsy). -/
def isFalsy : PyVal → Bool
  | .none => true
  | .bool b => !b
  | .int n => n == 0
  | .str s => s.isEmpty
  | .list l => l.isEmpty
  | .dict d => d.isEmpty

/-- First value bound to a key in a dict literal. -/
def lookupKV (kvs : List (String × PyVal)) (k : String) : Option PyVal :=
  (kvs.find? (fun kv => kv.1 == k)).map (·.2)

/-- `d.get(k, default)` on a dict. -/
def dictGet (item : PyVal) (k : String) (d : PyVal) : PyVal :=
  match item with
  | .dict kvs => (lookupKV kvs k).getD d
  | _ => d

/-- `(item or {}).get("op")` (line 1039): falsy items are replaced by the
empty dict (whose `get` yields `None`); a truthy non-dict has no `.get`
attribute and raises. -/
def getOpField (item : PyVal) : Except String PyVal :=
  if isFalsy item then .ok .none
  else match item with
    | .dict kvs => .ok ((lookupKV kvs "op").getD .none)
    | _ => .error "AttributeError"

/-- `int(v)` on the modelled values: ints pass through, bools become 0/1,
numeric strings parse, everything else raises. -/
def pyInt : PyVal → Except String Int
  | .int n => .ok n
  | .bool b => .ok (if b then 1 else 0)
  | .str s => match s.toInt? with
    | some n => .ok n
    | Option.none => .error "ValueError"
  | _ => .error "TypeError"

/-- `str(v)` on the modelled values (container reprs abbreviated; the
claims never exercise them). -/
def pyStr : PyVal → String
  | .str s => s
  | .int n => toString n
  | .bool b => if b then "True" else "False"
  | .none => "None"
  | .list _ => "[...]"
  | .dict _ => "{...}"

/-- `ALLOWED_OPS` (dashboard.py lines 555-573). -/
def ALLOWED_OPS : List String :=
  ["kpis_baseline", "kpis_slice", "summary_by_segment", "summary_by_province",
   "summary_by_card", "summary_by_gender", "top_risk_customers",
   "top_value_customers", "value_at_risk_by_segment", "value_at_risk_by_province",
   "churn_by_clv_tier", "do_nothing_scenario", "single_priority_initiative",
   "segment_comparison", "tenure_analysis", "revenue_impact", "correlation_drivers"]

/-- The operation names of `SUMMARY_OPS` (lines 575-580). -/
def SUMMARY_OP_NAMES : List String :=
  ["summary_by_segment", "summary_by_province", "summary_by_card", "summary_by_gender"]

/-- `VALUE_AT_RISK_OPS` (line 582). -/
def VALUE_AT_RISK_OPS : List String :=
  ["value_at_risk_by_segment", "value_at_risk_by_province"]

/-- `build_default_plan()` (lines 991-1024), verbatim. -/
def build_default_plan : PyVal :=
  .dict [("intent", .str "Answer using baseline vs slice, identify highest priority segment and province by value at risk, and do-nothing impact."),
    ("operations", .list [
      .dict [("op", .str "kpis_baseline")],
      .dict [("op", .str "kpis_slice")],
      .dict [("op", .str "do_nothing_scenario")],
      .dict [("op", .str "value_at_risk_by_segment"), ("top_n", .int 5),
             ("sort_by", .str "total_value_at_risk"), ("ascending", .bool false)],
      .dict [("op", .str "value_at_risk_by_province"), ("top_n", .int 5),
             ("sort_by", .str "total_value_at_risk"), ("ascending", .bool false)],
      .dict [("op", .str "summary_by_segment"), ("top_n", .int 5),
             ("sort_by", .str "avg_churn_score"), ("ascending", .bool false)],
      .dict [("op", .str "summary_by_province"), ("top_n", .int 5),
             ("sort_by", .str "avg_churn_score"), ("ascending", .bool false)],
      .dict [("op", .str "top_risk_customers"), ("top_n", .int 15)]])]

/-- The per-category parameter reconstruction of `_sanitize_plan`
(lines 1043-1078): a fresh item holding only the whitelisted keys, with
`top_n` clamped; raises when `int()` fails on the provided `top_n`. -/
def clean_item (op : String) (item : PyVal) : Except String PyVal :=
  if SUMMARY_OP_NAMES.contains op then
    match pyInt (dictGet item "top_n" (.int 10)) with
    | .error e => .error e
    | .ok tn => .ok (.dict [("op", .str op),
        ("top_n", .int (clamp_top_n tn 50)),
        ("sort_by", dictGet item "sort_by" (.str "avg_churn_score")),
        ("ascending", .bool (!isFalsy (dictGet item "ascending" (.bool false))))])
  else if op == "top_risk_customers" then
    match pyInt (dictGet item "top_n" (.int 25)) with
    | .error e => .error e
    | .ok tn => .ok (.dict [("op", .str op), ("top_n", .int (clamp_top_n tn 100))])
  else if VALUE_AT_RISK_OPS.contains op then
    match pyInt (dictGet item "top_n" (.int 10)) with
    | .error e => .error e
    | .ok tn => .ok (.dict [("op", .str op),
        ("top_n", .int (clamp_top_n tn 50)),
        ("sort_by", dictGet item "sort_by" (.str "total_value_at_risk")),
        ("ascending", .bool (!isFalsy (dictGet item "ascending" (.bool false))))])
  else if op == "segment_comparison" then
    .ok (.dict [("op", .str op),
      ("segment_a", .str (pyStr (dictGet item "segment_a" (.str "Champions"))).trim),
      ("segment_b", .str (pyStr (dictGet item "segment_b" (.str "At Risk"))).trim)])
  else if op == "top_value_customers" then
    match pyInt (dictGet item "top_n" (.int 25)) with
    | .error e => .error e
    | .ok tn =>
      let base : List (String × PyVal) := [("op", .str op), ("top_n", .int (clamp_top_n tn 100))]
      let sf := dictGet item "segment_filter" .none
      if isFalsy sf then .ok (.dict base)
      else .ok (.dict (base ++ [("segment_filter", .str (pyStr sf).trim)]))
  else .ok (.dict [("op", .str op)])

/-- The item loop of `_sanitize_plan` (lines 1035-1079): drop items whose
operation name is unknown or already seen, clean the rest.  `ALLOWED_OPS`
is a Python set, so the membership test `op not in ALLOWED_OPS` hashes the
operand: an unhashable `op` value (a list or dict) raises `TypeError`,
while hashable non-string values (`None`, numbers, booleans) are simply
not in the set and the item is dropped. -/
def sanitize_loop : List PyVal → List String → Except String (List PyVal)
  | [], _ => .ok []
  | item :: rest, seen =>
    match getOpField item with
    | .error e => .error e
    | .ok opv =>
      match opv with
      | .str op =>
        if ALLOWED_OPS.contains op && !(seen.contains op) then
          match clean_item op item with
          | .error e => .error e
          | .ok c =>
            match sanitize_loop rest (op :: seen) with
            | .error e => .error e
            | .ok tail => .ok (c :: tail)
        else sanitize_loop rest seen
      | .list _ => .error "TypeError: unhashable type"
      | .dict _ => .error "TypeError: unhashable type"
      | _ => sanitize_loop rest seen

/-- The sanitized intent string (lines 1085-1086): `str(...)` of the plan's
`intent`, stripped, with a fixed fallback when empty. -/
def plan_intent (kvs : List (String × PyVal)) : String :=
  let s := (pyStr ((lookupKV kvs "intent").getD (.str ""))).trim
  if s.isEmpty then "Answer the executive question using computed summaries." else s

/-- `_sanitize_plan(plan)` (lines 1027-1088): structurally invalid input or
an empty surviving-operation list yields the hard-coded default plan. -/
def sanitize_plan (plan : PyVal) : Except String PyVal :=
  match plan with
  | .dict kvs =>
    match lookupKV kvs "operations" with
    | some (.list items) =>
      match sanitize_loop items [] with
      | .error e => .error e
      | .ok [] => .ok build_default_plan
      | .ok ops => .ok (.dict [("intent", .str (plan_intent kvs)),
                               ("operations", .list ops)])
    | _ => .ok build_default_plan
  | _ => .ok build_default_plan

/-- The structural-validity test of lines 1028-1032: a mapping whose
`operations` key holds a sequence. -/
def has_operations_list : PyVal → Bool
  | .dict kvs =>
    match lookupKV kvs "operations" with
    | some (.list _) => true
    | _ => false
  | _ => false

/-! Concrete example batches and auxiliary projections used by the
claim theorems below. -/

/-- Example batch: six activity customers (one row each, months 1-6 of
2020, distinct flight counts and distances so both quintile binnings have
unique edges) and a history table containing them plus customer 7, who has
no activity rows at all. -/
def exC1cfa : List CFARow :=
  [{ loyalty_number := 1, year := 2020, month := 1, total_flights := 1, distance := 100 },
   { loyalty_number := 2, year := 2020, month := 2, total_flights := 2, distance := 200 },
   { loyalty_number := 3, year := 2020, month := 3, total_flights := 3, distance := 300 },
   { loyalty_number := 4, year := 2020, month := 4, total_flights := 4, distance := 400 },
   { loyalty_number := 5, year := 2020, month := 5, total_flights := 5, distance := 500 },
   { loyalty_number := 6, year := 2020, month := 6, total_flights := 6, distance := 600 }]

/-- A history row for the example batches (no cancellation). -/
def exClhRow (c : Int) : CLHRow :=
  { loyalty_number := c, province := "Ontario", city := "Toronto", gender := "Female",
    education := "Bachelor", loyalty_card := "Star", clv := 1000,
    enrollment_year := 2019, enrollment_month := 5 }

/-- History table for the C1 example: the six activity customers plus
customer 7, absent from the activity data. -/
def exC1clh : List CLHRow :=
  [exClhRow 1, exClhRow 2, exClhRow 3, exClhRow 4, exClhRow 5, exClhRow 6, exClhRow 7]

/-- Batch for the C2 counterexample: customers 1 and 2 have only
zero-flight periods; customer 3 flies in the same month. -/
def exC2cfa : List CFARow :=
  [{ loyalty_number := 1, year := 2020, month := 1, total_flights := 0, distance := 0 },
   { loyalty_number := 2, year := 2020, month := 1, total_flights := 0, distance := 0 },
   { loyalty_number := 3, year := 2020, month := 1, total_flights := 2, distance := 50 }]

/-- The C7 fixture batch: customer A (number 10) has flights 2, 0, 5 and
distances 100, 0, 400 in months 1, 2, 3 of 2020; five helper customers
(distinct frequencies and distances, activity within the same window) keep
the global maximum period at month 3 and both quintile binnings
duplicate-free. -/
def exC7cfa : List CFARow :=
  [{ loyalty_number := 1, year := 2020, month := 1, total_flights := 1, distance := 10 },
   { loyalty_number := 2, year := 2020, month := 2, total_flights := 2, distance := 20 },
   { loyalty_number := 3, year := 2020, month := 3, total_flights := 3, distance := 30 },
   { loyalty_number := 4, year := 2020, month := 1, total_flights := 4, distance := 40 },
   { loyalty_number := 5, year := 2020, month := 2, total_flights := 20, distance := 50 },
   { loyalty_number := 10, year := 2020, month := 1, total_flights := 2, distance := 100 },
   { loyalty_number := 10, year := 2020, month := 2, total_flights := 0, distance := 0 },
   { loyalty_number := 10, year := 2020, month := 3, total_flights := 5, distance := 400 }]

/-- History table for the C7 fixture. -/
def exC7clh : List CLHRow :=
  [exClhRow 1, exClhRow 2, exClhRow 3, exClhRow 4, exClhRow 5, exClhRow 10]

/-- Batch for the C9 abort case: customer 1's latest flight is 36 months
before the batch maximum, outside the last `pd.cut` bin. -/
def exC9cfa : List CFARow :=
  [{ loyalty_number := 1, year := 2020, month := 1, total_flights := 1, distance := 10 },
   { loyalty_number := 2, year := 2023, month := 1, total_flights := 1, distance := 20 }]

/-- History table for the C9 batch. -/
def exC9clh : List CLHRow := [exClhRow 1, exClhRow 2]

/-- Degenerate batch for C10: five customers with identical frequency 1, so
all six frequency quantile edges coincide. -/
def exC10cfa : List CFARow :=
  [{ loyalty_number := 1, year := 2020, month := 1, total_flights := 1, distance := 10 },
   { loyalty_number := 2, year := 2020, month := 1, total_flights := 1, distance := 20 },
   { loyalty_number := 3, year := 2020, month := 1, total_flights := 1, distance := 30 },
   { loyalty_number := 4, year := 2020, month := 1, total_flights := 1, distance := 40 },
   { loyalty_number := 5, year := 2020, month := 1, total_flights := 1, distance := 50 }]

/-- A flight-activity row with the derived `activity_date` column removed
(the ingested columns only). -/
def stripCFA (r : CFARow) : CFARow := { r with activity_date := none }

/-- A history row with the five derived columns removed (the ingested
columns only). -/
def stripCLH (h : CLHRow) : CLHRow :=
  { h with
    is_cancelled := none
    enrollment_date := none
    cancellation_date := none
    tenure_end_date := none
    tenure_months := none }

/-- Batch for the C8 counterexample. -/
def exC8cfa : List CFARow :=
  [{ loyalty_number := 1, year := 2020, month := 1, total_flights := 1, distance := 10 }]

/-- Example slice for C4: two customers in two different provinces with
distinct churn scores. -/
def exC4df : List SliceRow :=
  [{ loyalty_number := 1, province := some "Alberta", loyalty_card := some "Star",
     gender := some "Male", rfm_segment := some "Loyal", clv := 100, churn_score := 10,
     recency := 1, frequency := 2, monetary := 3, tenure_months := 4, is_cancelled := false },
   { loyalty_number := 2, province := some "Quebec", loyalty_card := some "Star",
     gender := some "Female", rfm_segment := some "Loyal", clv := 50, churn_score := 5,
     recency := 2, frequency := 3, monetary := 4, tenure_months := 5, is_cancelled := true }]

/-- Concrete planner output for the C5 witness: one valid `kpis_slice`
item, one duplicate of it, and one unknown operation name. -/
def exC5kvs : List (String × PyVal) :=
  [("intent", .str "focus retention"),
   ("operations", .list [
      .dict [("op", .str "kpis_slice")],
      .dict [("op", .str "kpis_slice"), ("top_n", .int 3)],
      .dict [("op", .str "made_up_op")]])]

/-! Helper lemmas about `listMax` and `dedupFirst`. -/

theorem listMax_eq_none {l : List Int} : listMax l = none ↔ l = [] := by
  cases l with
  | nil => simp [listMax]
  | cons x xs =>
    simp only [listMax]
    constructor
    · intro h
      cases hx : listMax xs <;> simp [hx] at h
    · intro h
      cases h

theorem le_listMax {l : List Int} {x m : Int} (hx : x ∈ l) (hm : listMax l = some m) :
    x ≤ m := by
  induction l generalizing m with
  | nil => cases hx
  | cons a as ih =>
    simp only [listMax] at hm
    cases has : listMax as with
    | none =>
      rw [has] at hm
      cases hm
      have : as = [] := listMax_eq_none.mp has
      subst this
      simp at hx
      omega
    | some m2 =>
      rw [has] at hm
      cases hm
      rcases List.mem_cons.mp hx with h | h
      · subst h; exact le_max_left _ _
      · exact le_trans (ih h has) (le_max_right _ _)

theorem listMax_mem {l : List Int} {m : Int} (hm : listMax l = some m) : m ∈ l := by
  induction l generalizing m with
  | nil => cases hm
  | cons a as ih =>
    simp only [listMax] at hm
    cases has : listMax as with
    | none =>
      rw [has] at hm
      cases hm
      exact List.mem_cons_self _ _
    | some m2 =>
      rw [has] at hm
      cases hm
      rcases max_choice a m2 with h | h
      · rw [h]; exact List.mem_cons_self _ _
      · rw [h]; exact List.mem_cons_of_mem _ (ih has)

theorem listMax_isSome_of_mem {l : List Int} {x : Int} (hx : x ∈ l) :
    ∃ m, listMax l = some m := by
  cases hl : listMax l with
  | none =>
    rw [listMax_eq_none.mp hl] at hx
    cases hx
  | some m => exact ⟨m, rfl⟩

theorem mem_dedupFirstAux [DecidableEq α] {l seen : List α} {a : α} :
    a ∈ dedupFirstAux l seen ↔ a ∈ l ∧ a ∉ seen := by
  induction l generalizing seen with
  | nil => simp [dedupFirstAux]
  | cons x xs ih =>
    simp only [dedupFirstAux]
    by_cases hx : x ∈ seen
    · rw [if_pos hx, ih]
      constructor
      · rintro ⟨h1, h2⟩
        exact ⟨List.mem_cons_of_mem _ h1, h2⟩
      · rintro ⟨h1, h2⟩
        rcases List.mem_cons.mp h1 with h | h
        · subst h; exact absurd hx h2
        · exact ⟨h, h2⟩
    · rw [if_neg hx]
      simp only [List.mem_cons, ih, List.mem_cons]
      constructor
      · rintro (h | ⟨h1, h2⟩)
        · subst h; exact ⟨Or.inl rfl, hx⟩
        · exact ⟨Or.inr h1, fun hs => h2 (Or.inr hs)⟩
      · rintro ⟨h1 | h1, h2⟩
        · exact Or.inl h1
        · by_cases hax : a = x
          · exact Or.inl hax
          · exact Or.inr ⟨h1, fun hs => hs.elim hax h2⟩

theorem nodup_dedupFirstAux [DecidableEq α] (l seen : List α) :
    (dedupFirstAux l seen).Nodup := by
  induction l generalizing seen with
  | nil => simp [dedupFirstAux]
  | cons x xs ih =>
    simp only [dedupFirstAux]
    by_cases hx : x ∈ seen
    · rw [if_pos hx]; exact ih seen
    · rw [if_neg hx]
      refine List.nodup_cons.mpr ⟨fun hmem => ?_, ih (x :: seen)⟩
      exact (mem_dedupFirstAux.mp hmem).2 (List.mem_cons_self _ _)

theorem mem_dedupFirst [DecidableEq α] {l : List α} {a : α} :
    a ∈ dedupFirst l ↔ a ∈ l := by
  simp [dedupFirst, mem_dedupFirstAux]

theorem nodup_dedupFirst [DecidableEq α] (l : List α) : (dedupFirst l).Nodup :=
  nodup_dedupFirstAux l []

theorem dedupFirstAux_eq_self [DecidableEq α] {l seen : List α} (hl : l.Nodup)
    (hs : ∀ a ∈ l, a ∉ seen) : dedupFirstAux l seen = l := by
  induction l generalizing seen with
  | nil => rfl
  | cons x xs ih =>
    have hnd := List.nodup_cons.mp hl
    simp only [dedupFirstAux, if_neg (hs x (List.mem_cons_self _ _))]
    congr 1
    refine ih hnd.2 fun a ha => ?_
    simp only [List.mem_cons, not_or]
    refine ⟨fun h => hnd.1 (h ▸ ha), hs a (List.mem_cons_of_mem _ ha)⟩

theorem dedupFirst_eq_self [DecidableEq α] {l : List α} (hl : l.Nodup) :
    dedupFirst l = l :=
  dedupFirstAux_eq_self hl (by simp)

/-! Lemmas about the recency stage. -/

theorem raw_recency_nonneg {cfa : List CFARow} {c : Int} {r : Int}
    (h : raw_recency cfa c = some r) : 0 ≤ r := by
  unfold raw_recency at h
  cases hmx : max_activity_date cfa with
  | none => rw [hmx] at h; cases h
  | some mx =>
    cases hd : recent_activity_date cfa c with
    | none => rw [hmx, hd] at h; cases h
    | some d =>
      rw [hmx, hd] at h
      cases h
      have hdm : d ∈ (cfa.filter (fun r => decide (r.total_flights > 0) &&
          (r.loyalty_number == c))).map activity_date_of :=
        listMax_mem hd
      rcases List.mem_map.mp hdm with ⟨row, hrow, hdate⟩
      have hrow' : row ∈ cfa := List.mem_of_mem_filter hrow
      have : d ∈ cfa.map activity_date_of := List.mem_map.mpr ⟨row, hrow', hdate⟩
      have := le_listMax this hmx
      simp only [months_diff]
      omega

theorem max_recency_nonneg {cfa : List CFARow} {m : Int}
    (h : max_recency cfa = some m) : 0 ≤ m := by
  have hm : m ∈ (customers cfa).filterMap (raw_recency cfa) := listMax_mem h
  rcases List.mem_filterMap.mp hm with ⟨c, _, hc⟩
  exact raw_recency_nonneg hc

theorem recency_nonneg {cfa : List CFARow} {c : Int} {r : Int}
    (h : recency cfa c = some r) : 0 ≤ r := by
  unfold recency at h
  cases hraw : raw_recency cfa c with
  | some r0 =>
    rw [hraw] at h
    cases h
    exact raw_recency_nonneg hraw
  | none =>
    rw [hraw] at h
    cases hmr : max_recency cfa with
    | none => rw [hmr] at h; cases h
    | some m =>
      rw [hmr] at h
      cases h
      have := max_recency_nonneg hmr
      show 0 ≤ m + 1
      omega

theorem r_score_of_mem {r : Int} (h0 : 0 ≤ r) (h24 : r ≤ 24) :
    ∃ s, r_score_of r = some s ∧ 1 ≤ s ∧ s ≤ 5 := by
  unfold r_score_of
  split_ifs <;> first
    | omega
    | exact ⟨5, rfl, by omega⟩
    | exact ⟨4, rfl, by omega⟩
    | exact ⟨3, rfl, by omega⟩
    | exact ⟨2, rfl, by omega⟩
    | exact ⟨1, rfl, by omega⟩

/-! Lemmas about qualifying rows, frequency and monetary. -/

theorem no_qualifying_filter_nil {cfa : List CFARow} {c : Int}
    (h : recent_activity_date cfa c = none) :
    cfa.filter (fun r => decide (r.total_flights > 0) && (r.loyalty_number == c)) = [] := by
  unfold recent_activity_date at h
  have := listMax_eq_none.mp h
  exact List.map_eq_nil_iff.mp this

theorem frequency_zero_of_no_qualifying {cfa : List CFARow} {c : Int}
    (hnn : ∀ r ∈ cfa, 0 ≤ r.total_flights)
    (h : recent_activity_date cfa c = none) : frequency cfa c = 0 := by
  unfold frequency
  apply List.sum_eq_zero
  intro x hx
  rcases List.mem_map.mp hx with ⟨row, hrow, hval⟩
  have hmem : row ∈ cfa := List.mem_of_mem_filter hrow
  have hkey : (row.loyalty_number == c) = true := by
    have hp := List.of_mem_filter hrow
    simpa using hp
  have hnot : ¬ (decide (row.total_flights > 0) && (row.loyalty_number == c)) = true := by
    intro hc
    have : row ∈ cfa.filter (fun r => decide (r.total_flights > 0) && (r.loyalty_number == c)) :=
      List.mem_filter.mpr ⟨hmem, hc⟩
    rw [no_qualifying_filter_nil h] at this
    cases this
  have hflights : ¬ row.total_flights > 0 := by
    intro hgt
    exact hnot (by simp [hgt, hkey])
  have := hnn row hmem
  omega

theorem monetary_zero_of_no_qualifying {cfa : List CFARow} {c : Int}
    (h : recent_activity_date cfa c = none) : monetary_val cfa c = 0 := by
  unfold monetary_val monetary_raw
  rw [no_qualifying_filter_nil h]
  rfl

/-! Inversion lemmas for the build pipeline. -/

theorem nodup_customers (cfa : List CFARow) : (customers cfa).Nodup :=
  nodup_dedupFirst _

theorem rfm_table_ok_inv {cfa : List CFARow} {t : List RfmRow}
    (h : rfm_table cfa = .ok t) :
    (∀ c ∈ customers cfa, (recency cfa c).isSome = true) ∧
    (∀ c ∈ customers cfa, ((recency cfa c).bind r_score_of).isSome = true) ∧
    allDistinct (frequency_edges cfa) = true ∧
    allDistinct (monetary_edges cfa) = true ∧
    t = (customers cfa).map (mkRfmRow cfa) := by
  unfold rfm_table at h
  by_cases h1 : ((customers cfa).any fun c => (recency cfa c).isNone) = true
  · rw [if_pos h1] at h; cases h
  · rw [if_neg h1] at h
    by_cases h2 : ((customers cfa).any fun c =>
        ((recency cfa c).bind r_score_of).isNone) = true
    · rw [if_pos h2] at h; cases h
    · rw [if_neg h2] at h
      by_cases h3 : (!allDistinct (frequency_edges cfa)) = true
      · rw [if_pos h3] at h; cases h
      · rw [if_neg h3] at h
        by_cases h4 : (!allDistinct (monetary_edges cfa)) = true
        · rw [if_pos h4] at h; cases h
        · rw [if_neg h4] at h
          cases h
          refine ⟨?_, ?_, ?_, ?_, rfl⟩
          · intro c hc
            have hx := List.any_eq_true.not.mp h1
            push_neg at hx
            have := hx c hc
            simpa [Option.isSome_iff_ne_none, Option.isNone_iff_eq_none] using this
          · intro c hc
            have hx := List.any_eq_true.not.mp h2
            push_neg at hx
            have := hx c hc
            simpa [Option.isSome_iff_ne_none, Option.isNone_iff_eq_none] using this
          · simpa using h3
          · simpa using h4

theorem build_ok_inv {cfa : List CFARow} {clh : List CLHRow} {rows : List FeatureRow}
    (h : (build_customer_features cfa clh).2.2 = .ok rows) :
    ∃ rfm mx clh2, rfm_table cfa = .ok rfm ∧ max_activity_date cfa = some mx ∧
      deriveAll mx clh = .ok clh2 ∧
      rows = clh2.map (fun h2 =>
        mkFeatureRow h2 (rfm.find? (fun t => t.loyalty_number == h2.loyalty_number))) := by
  unfold build_customer_features at h
  split at h
  · cases h
  · simp only at h
    split at h
    · cases h
    · rename_i rfm hrfm
      split at h
      · cases h
      · rename_i mx hmx
        split at h
        · cases h
        · rename_i clh2 hclh2
          cases h
          exact ⟨rfm, mx, clh2, hrfm, hmx, hclh2, rfl⟩

theorem clh_derive_ok_base {mx : Int} {h h2 : CLHRow}
    (hd : clh_derive mx h = .ok h2) :
    h2.loyalty_number = h.loyalty_number ∧ h2.province = h.province ∧
    h2.city = h.city ∧ h2.gender = h.gender ∧ h2.education = h.education ∧
    h2.loyalty_card = h.loyalty_card ∧ h2.clv = h.clv ∧
    h2.enrollment_year = h.enrollment_year ∧
    h2.enrollment_month = h.enrollment_month ∧
    h2.cancellation_year = h.cancellation_year ∧
    h2.cancellation_month = h.cancellation_month := by
  unfold clh_derive at hd
  split at hd
  · cases hd
  · split at hd
    · cases hd
      simp
    · cases hd

theorem deriveAll_ok_keys {mx : Int} {clh clh2 : List CLHRow}
    (h : deriveAll mx clh = .ok clh2) :
    clh2.map (·.loyalty_number) = clh.map (·.loyalty_number) := by
  induction clh generalizing clh2 with
  | nil => cases h; rfl
  | cons x xs ih =>
    unfold deriveAll at h
    split at h
    · cases h
    · rename_i x2 hx2
      split at h
      · cases h
      · rename_i xs2 hxs2
        cases h
        simp only [List.map_cons]
        rw [(clh_derive_ok_base hx2).1, ih hxs2]

theorem find_map_mkRfmRow_of_mem {cfa : List CFARow} {cs : List Int} {c : Int}
    (hnd : cs.Nodup) (hc : c ∈ cs) :
    (cs.map (mkRfmRow cfa)).find? (fun t => t.loyalty_number == c) =
      some (mkRfmRow cfa c) := by
  induction cs with
  | nil => cases hc
  | cons x xs ih =>
    have hnd2 := List.nodup_cons.mp hnd
    simp only [List.map_cons]
    by_cases hxc : x = c
    · subst hxc
      have hp : ((mkRfmRow cfa x).loyalty_number == x) = true := by
        simp [mkRfmRow]
      rw [@List.find?_cons_of_pos RfmRow (fun t => t.loyalty_number == x)
        (mkRfmRow cfa x) (List.map (mkRfmRow cfa) xs) hp]
    · rcases List.mem_cons.mp hc with hcc | hcc
      · exact absurd hcc.symm hxc
      · have hp : ¬ ((mkRfmRow cfa x).loyalty_number == c) = true := by
          simp [mkRfmRow, hxc]
        rw [@List.find?_cons_of_neg RfmRow (fun t => t.loyalty_number == c)
          (mkRfmRow cfa x) (List.map (mkRfmRow cfa) xs) hp]
        exact ih hnd2.2 hcc

theorem find_map_mkRfmRow_of_not_mem {cfa : List CFARow} {cs : List Int} {c : Int}
    (hc : c ∉ cs) :
    (cs.map (mkRfmRow cfa)).find? (fun t => t.loyalty_number == c) = none := by
  rw [List.find?_eq_none]
  intro t ht
  rcases List.mem_map.mp ht with ⟨c2, hc2, rfl⟩
  simp only [mkRfmRow]
  intro hbeq
  exact hc (beq_iff_eq.mp hbeq ▸ hc2)

/-! Claim C1: output shape of `build_customer_features`. -/

/-- C1 (counterexample): on a batch whose history table contains customer 7
with no activity rows, the build succeeds and customer 7's feature row has
missing (null) recency, frequency and monetary — not the sentinel recency
and zeros the claim asserts. -/
theorem c1_counterexample :
    (((build_customer_features exC1cfa exC1clh).2.2).toOption.bind
      (fun rows => rows.find? (fun r => r.loyalty_number == 7))).map
      (fun r => (r.recency, r.frequency, r.monetary)) =
      some (none, none, none) := by
  decide

/-- C1 (amended): on every successful build with duplicate-free history
identifiers and non-negative flight counts, the output has exactly one row
per distinct history customer (and none for customers absent from the
history table, so activity-only customers are dropped); history customers
with no activity rows get a row whose recency, frequency and monetary are
null; and history customers that appear in the activity data but have no
positive-flight period get the sentinel recency `max_recency + 1`,
frequency 0 and monetary 0. -/
theorem c1_feature_rows {cfa : List CFARow} {clh : List CLHRow} {rows : List FeatureRow}
    (hok : (build_customer_features cfa clh).2.2 = .ok rows)
    (hnd : (clh.map (·.loyalty_number)).Nodup)
    (hnn : ∀ r ∈ cfa, 0 ≤ r.total_flights) :
    (∀ c, c ∈ clh.map (·.loyalty_number) → (rows.map (·.loyalty_number)).count c = 1) ∧
    (∀ c, c ∉ clh.map (·.loyalty_number) → (rows.map (·.loyalty_number)).count c = 0) ∧
    (∀ row ∈ rows, row.loyalty_number ∉ customers cfa →
      row.recency = none ∧ row.frequency = none ∧ row.monetary = none ∧
      row.rfm_segment = none) ∧
    (∀ row ∈ rows, row.loyalty_number ∈ customers cfa →
      recent_activity_date cfa row.loyalty_number = none →
      row.recency = (max_recency cfa).map (· + 1) ∧
      row.frequency = some 0 ∧ row.monetary = some 0) := by
  obtain ⟨rfm, mx, clh2, hrfm, hmx, hclh2, hrows⟩ := build_ok_inv hok
  obtain ⟨hrec, hrsc, hfe, hme, hrfm_eq⟩ := rfm_table_ok_inv hrfm
  have hkeys : rows.map (·.loyalty_number) = clh.map (·.loyalty_number) := by
    rw [hrows, List.map_map, ← deriveAll_ok_keys hclh2]
    rfl
  refine ⟨?_, ?_, ?_, ?_⟩
  · intro c hc
    rw [hkeys]
    exact List.count_eq_one_of_mem hnd hc
  · intro c hc
    rw [hkeys]
    exact List.count_eq_zero_of_not_mem hc
  · intro row hrow hnotc
    rw [hrows] at hrow
    rcases List.mem_map.mp hrow with ⟨h2, _, rfl⟩
    have hkey : (mkFeatureRow h2 (rfm.find? (fun t =>
        t.loyalty_number == h2.loyalty_number))).loyalty_number = h2.loyalty_number := rfl
    rw [hkey] at hnotc
    rw [hrfm_eq, find_map_mkRfmRow_of_not_mem hnotc]
    exact ⟨rfl, rfl, rfl, rfl⟩
  · intro row hrow hmem hnoq
    rw [hrows] at hrow
    rcases List.mem_map.mp hrow with ⟨h2, _, rfl⟩
    have hkey : (mkFeatureRow h2 (rfm.find? (fun t =>
        t.loyalty_number == h2.loyalty_number))).loyalty_number = h2.loyalty_number := rfl
    rw [hkey] at hmem hnoq
    rw [hrfm_eq, find_map_mkRfmRow_of_mem (nodup_customers cfa) hmem]
    have hrecs := hrec _ hmem
    have hrecval : recency cfa h2.loyalty_number =
        (max_recency cfa).map (· + 1) := by
      unfold recency raw_recency
      rw [hnoq]
      cases max_activity_date cfa <;> rfl
    refine ⟨?_, ?_, ?_⟩
    · show some ((recency cfa h2.loyalty_number).getD 0) = _
      rw [hrecval] at hrecs ⊢
      cases hmr : max_recency cfa with
      | none => rw [hmr] at hrecs; simp at hrecs
      | some m => rfl
    · show some (frequency cfa h2.loyalty_number) = some 0
      rw [frequency_zero_of_no_qualifying hnn hnoq]
    · show some (monetary_val cfa h2.loyalty_number) = some 0
      rw [monetary_zero_of_no_qualifying hnoq]

/-- C1 (witness): the amended theorem applied to the example batch —
customer 7 is in the history table, so it has exactly one feature row, and
customer 99 is in neither table, so it has none. -/
theorem c1_witness :
    ((((build_customer_features exC1cfa exC1clh).2.2).toOption.getD []).map
      (·.loyalty_number)).count 7 = 1 ∧
    ((((build_customer_features exC1cfa exC1clh).2.2).toOption.getD []).map
      (·.loyalty_number)).count 99 = 0 := by
  have h := @c1_feature_rows exC1cfa exC1clh
    (((build_customer_features exC1cfa exC1clh).2.2).toOption.getD [])
    (by decide) (by decide) (by decide)
  exact ⟨h.1 7 (by decide), h.2.1 99 (by decide)⟩

/-! Claim C2: the recency computation. -/

/-- C2 (counterexample): customers 1 and 2 both have zero qualifying
periods, so both receive the sentinel recency 1 — equal, hence neither
customer's sentinel is strictly greater than the recency of every other
customer in the batch. -/
theorem c2_counterexample :
    recent_activity_date exC2cfa 1 = none ∧
    recent_activity_date exC2cfa 2 = none ∧
    recency exC2cfa 1 = some 1 ∧ recency exC2cfa 2 = some 1 ∧
    ¬ ((1 : Int) > 1) := by
  decide

/-- C2 (amended): for a customer with a qualifying period, recency is the
non-negative month difference from the latest qualifying period to the
global maximum activity date; for a customer with none, recency is the
maximum finite recency plus one, which is strictly greater than the
recency of every customer that does have a qualifying period (customers
that also lack one share the same sentinel value). -/
theorem c2_recency :
    (∀ (cfa : List CFARow) (c d : Int),
      recent_activity_date cfa c = some d →
      ∃ mx, max_activity_date cfa = some mx ∧
        recency cfa c = some (months_diff mx d) ∧ 0 ≤ months_diff mx d) ∧
    (∀ (cfa : List CFARow) (c m : Int),
      recent_activity_date cfa c = none →
      max_recency cfa = some m →
      recency cfa c = some (m + 1) ∧
      ∀ c2 ∈ customers cfa, ∀ r2, recent_activity_date cfa c2 ≠ none →
        recency cfa c2 = some r2 → r2 < m + 1) := by
  constructor
  · intro cfa c d hd
    have hdm : d ∈ (cfa.filter (fun r => decide (r.total_flights > 0) &&
        (r.loyalty_number == c))).map activity_date_of := listMax_mem hd
    rcases List.mem_map.mp hdm with ⟨row, hrow, hdate⟩
    have hfull : d ∈ cfa.map activity_date_of :=
      List.mem_map.mpr ⟨row, List.mem_of_mem_filter hrow, hdate⟩
    obtain ⟨mx, hmx⟩ := listMax_isSome_of_mem hfull
    have hraw : raw_recency cfa c = some (months_diff mx d) := by
      unfold raw_recency
      rw [show max_activity_date cfa = some mx from hmx, hd]
    refine ⟨mx, hmx, ?_, ?_⟩
    · unfold recency
      rw [hraw]
    · exact raw_recency_nonneg hraw
  · intro cfa c m hnone hm
    have hraw : raw_recency cfa c = none := by
      unfold raw_recency
      rw [hnone]
      cases max_activity_date cfa <;> rfl
    constructor
    · unfold recency
      rw [hraw, hm]
      rfl
    · intro c2 hc2 r2 hsome2 hrec2
      cases hd2 : recent_activity_date cfa c2 with
      | none => exact absurd hd2 hsome2
      | some d2 =>
        have hdm : d2 ∈ (cfa.filter (fun r => decide (r.total_flights > 0) &&
            (r.loyalty_number == c2))).map activity_date_of := listMax_mem hd2
        rcases List.mem_map.mp hdm with ⟨row, hrow, hdate⟩
        have hfull : d2 ∈ cfa.map activity_date_of :=
          List.mem_map.mpr ⟨row, List.mem_of_mem_filter hrow, hdate⟩
        obtain ⟨mx, hmx⟩ := listMax_isSome_of_mem hfull
        have hraw2 : raw_recency cfa c2 = some (months_diff mx d2) := by
          unfold raw_recency
          rw [show max_activity_date cfa = some mx from hmx, hd2]
        have hr2 : r2 = months_diff mx d2 := by
          unfold recency at hrec2
          rw [hraw2] at hrec2
          cases hrec2
          rfl
        have hmem2 : r2 ∈ (customers cfa).filterMap (raw_recency cfa) :=
          List.mem_filterMap.mpr ⟨c2, hc2, by rw [hraw2, hr2]⟩
        have := le_listMax hmem2 hm
        omega

/-- C2 (witness): the amended theorem applied to the C2 example batch —
customer 3's recency is the month difference 0, and customers 1 and 2 get
sentinel 1, strictly above it. -/
theorem c2_witness :
    (∃ mx, max_activity_date exC2cfa = some mx ∧
      recency exC2cfa 3 = some (months_diff mx (2020 * 12 + 1)) ∧
      0 ≤ months_diff mx (2020 * 12 + 1)) ∧
    (recency exC2cfa 1 = some (0 + 1) ∧
      ∀ c2 ∈ customers exC2cfa, ∀ r2, recent_activity_date exC2cfa c2 ≠ none →
        recency exC2cfa c2 = some r2 → r2 < 0 + 1) := by
  exact ⟨c2_recency.1 exC2cfa 3 (2020 * 12 + 1) (by decide),
         c2_recency.2 exC2cfa 1 0 (by decide) (by decide)⟩

/-! Claim C3: the segment decision rule. -/

/-- C3: `assign_rfm_segment` is a (pure) function of the score triple whose
first-match rule assigns every triple in `[1,5]^3` one of the five segment
labels; in particular `(5, 5, 3)` falls through the Champions branch
(`m < 4`) into Loyal. -/
theorem c3_assign_rfm_segment :
    (∀ r f m : Int, 1 ≤ r → r ≤ 5 → 1 ≤ f → f ≤ 5 → 1 ≤ m → m ≤ 5 →
      assign_rfm_segment r f m ∈
        (["Champions", "Loyal", "At Risk", "Dormant", "Potential"] : List String)) ∧
    assign_rfm_segment 5 5 3 = "Loyal" := by
  constructor
  · intro r f m _ _ _ _ _ _
    unfold assign_rfm_segment
    split_ifs <;> simp
  · decide

/-- C3 (witness): the rule applied at the boundary triple (5, 5, 3). -/
theorem c3_witness :
    assign_rfm_segment 5 5 3 ∈
      (["Champions", "Loyal", "At Risk", "Dormant", "Potential"] : List String) :=
  c3_assign_rfm_segment.1 5 5 3 (by decide) (by decide) (by decide) (by decide)
    (by decide) (by decide)

/-! Claim C7: frequency and monetary sums, and the RFM fixture scenario. -/

theorem monetary_val_eq_sum (cfa : List CFARow) (c : Int) :
    monetary_val cfa c = ((cfa.filter (fun r => decide (r.total_flights > 0) &&
      (r.loyalty_number == c))).map (·.distance)).sum := by
  unfold monetary_val monetary_raw
  by_cases hq : (cfa.filter (fun r => decide (r.total_flights > 0) &&
      (r.loyalty_number == c))).isEmpty
  · rw [if_pos hq]
    rw [List.isEmpty_iff.mp hq]
    rfl
  · rw [if_neg hq]
    rfl

/-- C7: frequency is the sum of flight counts over all of the customer's
periods and monetary the sum of distance over exactly the nonzero-flight
periods (so 0 when there is none); on the fixture batch, customer A gets
recency 0, frequency 7, monetary 500 through the full build. -/
theorem c7_frequency_monetary :
    (∀ (cfa : List CFARow) (c : Int),
      (∀ r ∈ cfa, 0 ≤ r.total_flights) →
      frequency cfa c =
        ((cfa.filter (fun r => r.loyalty_number == c)).map (·.total_flights)).sum ∧
      monetary_val cfa c =
        ((cfa.filter (fun r => (r.loyalty_number == c) &&
          !(r.total_flights == 0))).map (·.distance)).sum) ∧
    ((((build_customer_features exC7cfa exC7clh).2.2).toOption.bind
      (fun rows => rows.find? (fun r => r.loyalty_number == 10))).map
      (fun r => (r.recency, r.frequency, r.monetary)) =
      some (some 0, some 7, some 500)) := by
  constructor
  · intro cfa c hnn
    refine ⟨rfl, ?_⟩
    rw [monetary_val_eq_sum]
    have hfe : cfa.filter (fun r => decide (r.total_flights > 0) &&
        (r.loyalty_number == c)) =
        cfa.filter (fun r => (r.loyalty_number == c) && !(r.total_flights == 0)) := by
      apply List.filter_congr
      intro x hx
      have := hnn x hx
      by_cases hz : x.total_flights = 0
      · simp [hz]
      · have hpos : x.total_flights > 0 := by omega
        simp [hz, hpos]
    rw [hfe]
  · decide

/-- C7 (witness): the sum characterisations applied to customer A of the
fixture batch. -/
theorem c7_witness :
    frequency exC7cfa 10 =
      ((exC7cfa.filter (fun r => r.loyalty_number == 10)).map (·.total_flights)).sum ∧
    monetary_val exC7cfa 10 =
      ((exC7cfa.filter (fun r => (r.loyalty_number == 10) &&
        !(r.total_flights == 0))).map (·.distance)).sum :=
  c7_frequency_monetary.1 exC7cfa 10 (by decide)

/-! Claim C9: the fixed r-score banding is only total on [0, 24]. -/

/-- C9: every computed recency (sentinel included) is non-negative; when
every customer's recency is at most 24 months, every customer is banded
into an r-score in {1,...,5}; and on a batch containing a 36-month recency
the build aborts with the `astype` error instead of assigning a tier. -/
theorem c9_r_score_banding :
    (∀ (cfa : List CFARow) (c r : Int), recency cfa c = some r → 0 ≤ r) ∧
    (∀ cfa : List CFARow,
      (∀ c ∈ customers cfa, ∃ r, recency cfa c = some r ∧ r ≤ 24) →
      ∀ c ∈ customers cfa, ∃ r s, recency cfa c = some r ∧ r_score_of r = some s ∧
        1 ≤ s ∧ s ≤ 5) ∧
    (build_customer_features exC9cfa exC9clh).2.2 =
      .error "Cannot convert float NaN to integer" := by
  refine ⟨?_, ?_, ?_⟩
  · intro cfa c r h
    exact recency_nonneg h
  · intro cfa hall c hc
    obtain ⟨r, hr, h24⟩ := hall c hc
    obtain ⟨s, hs, h1, h5⟩ := r_score_of_mem (recency_nonneg hr) h24
    exact ⟨r, s, hr, hs, h1, h5⟩
  · decide

/-- C9 (witness): the banding theorem applied to the C1 example batch, in
which every recency lies in [0, 5]. -/
theorem c9_witness :
    (0 : Int) ≤ 0 ∧
    (∃ r s, recency exC1cfa 6 = some r ∧ r_score_of r = some s ∧
      1 ≤ s ∧ s ≤ 5) := by
  refine ⟨c9_r_score_banding.1 exC1cfa 6 0 (by decide), ?_⟩
  refine c9_r_score_banding.2.1 exC1cfa ?_ 6 (by decide)
  intro c hc
  rw [show customers exC1cfa = [1, 2, 3, 4, 5, 6] from by decide] at hc
  simp only [List.mem_cons, List.not_mem_nil, or_false] at hc
  rcases hc with rfl | rfl | rfl | rfl | rfl | rfl
  · exact ⟨5, by decide, by decide⟩
  · exact ⟨4, by decide, by decide⟩
  · exact ⟨3, by decide, by decide⟩
  · exact ⟨2, by decide, by decide⟩
  · exact ⟨1, by decide, by decide⟩
  · exact ⟨0, by decide, by decide⟩

/-! Claim C10: the quintile binning has no duplicate-edge handling. -/

/-- C10: a successful build requires all quintile edges of both the
frequency and the monetary column to be pairwise distinct, and on a batch
with a degenerate frequency distribution the build aborts with the `qcut`
duplicate-edges error instead of collapsing to a fallback bucket. -/
theorem c10_quintile_edges :
    (∀ (cfa : List CFARow) (clh : List CLHRow) (rows : List FeatureRow),
      (build_customer_features cfa clh).2.2 = .ok rows →
      allDistinct (frequency_edges cfa) = true ∧
      allDistinct (monetary_edges cfa) = true) ∧
    (build_customer_features exC10cfa []).2.2 =
      .error "Bin edges must be unique" := by
  constructor
  · intro cfa clh rows hok
    obtain ⟨rfm, mx, clh2, hrfm, _, _, _⟩ := build_ok_inv hok
    have h := rfm_table_ok_inv hrfm
    exact ⟨h.2.2.1, h.2.2.2.1⟩
  · decide

/-- C10 (witness): the distinct-edges consequence on the successful C1
example build. -/
theorem c10_witness :
    allDistinct (frequency_edges exC1cfa) = true ∧
    allDistinct (monetary_edges exC1cfa) = true :=
  c10_quintile_edges.1 exC1cfa exC1clh
    (((build_customer_features exC1cfa exC1clh).2.2).toOption.getD []) (by decide)

/-! Claim C8: the build mutates its inputs. -/

theorem clh_derive_ok_strip {mx : Int} {h h2 : CLHRow}
    (hd : clh_derive mx h = .ok h2) : stripCLH h2 = stripCLH h := by
  obtain ⟨e1, e2, e3, e4, e5, e6, e7, e8, e9, e10, e11⟩ := clh_derive_ok_base hd
  unfold stripCLH
  rw [e1, e2, e3, e4, e5, e6, e7, e8, e9, e10, e11]

theorem deriveAll_ok_strip {mx : Int} {clh clh2 : List CLHRow}
    (h : deriveAll mx clh = .ok clh2) :
    clh2.map stripCLH = clh.map stripCLH := by
  induction clh generalizing clh2 with
  | nil => cases h; rfl
  | cons x xs ih =>
    unfold deriveAll at h
    split at h
    · cases h
    · rename_i x2 hx2
      split at h
      · cases h
      · rename_i xs2 hxs2
        cases h
        simp only [List.map_cons]
        rw [clh_derive_ok_strip hx2, ih hxs2]

/-- C8 (counterexample): after invoking `build_customer_features`, the
activity table is not the table that was passed in — the call has assigned
the derived `activity_date` column onto the caller's dataframe in place. -/
theorem c8_counterexample :
    (build_customer_features exC8cfa []).1 ≠ exC8cfa := by
  decide

/-- C8 (amended): the build is not side-effect-free — it assigns derived
columns onto both input tables in place — but the mutation is bounded:
projecting the post-state tables onto their ingested columns recovers
exactly the input tables (no ingested cell or row is changed, added or
removed). -/
theorem c8_mutation_bound (cfa : List CFARow) (clh : List CLHRow) :
    ((build_customer_features cfa clh).1).map stripCFA = cfa.map stripCFA ∧
    ((build_customer_features cfa clh).2.1).map stripCLH = clh.map stripCLH := by
  have hmapc : ((cfa.map (fun r =>
      { r with activity_date := some (activity_date_of r) })).map stripCFA) =
      cfa.map stripCFA := by
    rw [List.map_map]
    rfl
  unfold build_customer_features
  split
  · exact ⟨rfl, rfl⟩
  · split
    · exact ⟨hmapc, rfl⟩
    · split
      · exact ⟨hmapc, rfl⟩
      · split
        · exact ⟨hmapc, rfl⟩
        · rename_i clh2 hclh2
          exact ⟨hmapc, deriveAll_ok_strip hclh2⟩

/-! Claim C4: grouped summaries and customer conservation. -/

theorem sum_map_congr {α : Type} {f g : α → Nat} {l : List α}
    (h : ∀ a ∈ l, f a = g a) : (l.map f).sum = (l.map g).sum := by
  induction l with
  | nil => rfl
  | cons x xs ih =>
    simp only [List.map_cons, List.sum_cons]
    rw [h x (List.mem_cons_self _ _), ih (fun a ha => h a (List.mem_cons_of_mem _ ha))]

theorem sum_map_add_nat {α : Type} (f g : α → Nat) (l : List α) :
    (l.map (fun x => f x + g x)).sum = (l.map f).sum + (l.map g).sum := by
  induction l with
  | nil => rfl
  | cons x xs ih =>
    simp only [List.map_cons, List.sum_cons, ih]
    omega

theorem sum_indicator_not_mem {k0 : String} {ks : List String} (h : k0 ∉ ks) :
    (ks.map (fun k => if k0 = k then (1 : Nat) else 0)).sum = 0 := by
  induction ks with
  | nil => rfl
  | cons x xs ih =>
    simp only [List.map_cons, List.sum_cons]
    rw [if_neg (fun he => h (by rw [he]; exact List.mem_cons_self _ _)),
      ih (fun hm => h (List.mem_cons_of_mem _ hm))]

theorem sum_indicator_nodup_mem {k0 : String} {ks : List String}
    (hnd : ks.Nodup) (hm : k0 ∈ ks) :
    (ks.map (fun k => if k0 = k then (1 : Nat) else 0)).sum = 1 := by
  induction ks with
  | nil => cases hm
  | cons x xs ih =>
    have h2 := List.nodup_cons.mp hnd
    simp only [List.map_cons, List.sum_cons]
    by_cases he : k0 = x
    · subst he
      rw [if_pos rfl, sum_indicator_not_mem h2.1]
    · rcases List.mem_cons.mp hm with h | h
      · exact absurd h he
      · rw [if_neg he, ih h2.2 h]

/-- Grouping by distinct keys that cover every row partitions the rows: the
group sizes sum to the row count. -/
theorem partition_filter_length {α : Type} (key : α → Option String)
    (ks : List String) (hnd : ks.Nodup) :
    ∀ df : List α, (∀ r ∈ df, ∃ k, key r = some k ∧ k ∈ ks) →
    (ks.map (fun k => (df.filter (fun r => key r == some k)).length)).sum =
      df.length := by
  intro df
  induction df with
  | nil =>
    intro _
    have : ∀ k ∈ ks, (([] : List α).filter (fun r => key r == some k)).length = 0 :=
      fun _ _ => rfl
    rw [sum_map_congr this]
    simp [List.sum_eq_zero]
  | cons r rest ih =>
    intro hcov
    obtain ⟨k0, hk0, hk0m⟩ := hcov r (List.mem_cons_self _ _)
    have hstep : ∀ k ∈ ks,
        ((r :: rest).filter (fun x => key x == some k)).length =
        (if k0 = k then (1 : Nat) else 0) +
          (rest.filter (fun x => key x == some k)).length := by
      intro k _
      by_cases he : k0 = k
      · subst he
        rw [List.filter_cons_of_pos, if_pos rfl]
        · rw [List.length_cons]
          omega
        · rw [hk0]
          exact beq_self_eq_true _
      · rw [List.filter_cons_of_neg, if_neg he]
        · omega
        · rw [hk0]
          simp [he]
    have e1 : (ks.map (fun k =>
        ((r :: rest).filter (fun x => key x == some k)).length)).sum =
        (ks.map (fun k => (if k0 = k then (1 : Nat) else 0) +
          (rest.filter (fun x => key x == some k)).length)).sum :=
      sum_map_congr hstep
    have e2 := sum_map_add_nat (fun k => if k0 = k then (1 : Nat) else 0)
      (fun k => (rest.filter (fun x => key x == some k)).length) ks
    rw [e1, e2, sum_indicator_nodup_mem hnd hk0m,
      ih (fun x hx => hcov x (List.mem_cons_of_mem _ hx)), List.length_cons]
    omega

theorem nunique_eq_length {α : Type} [DecidableEq α] {l : List α} (h : l.Nodup) :
    nunique l = l.length := by
  rw [nunique, dedupFirst_eq_self h]

/-- C4 (counterexample): `summary_by_province` with `top_n = 1` on a
two-province slice truncates one group away, so the reported per-group
customer counts sum to 1 while the slice holds 2 distinct customers. -/
theorem c4_counterexample :
    ((compute_summary .by_province 1 "avg_churn_score" false exC4df).map
      (·.customers)).sum = 1 ∧
    nunique (exC4df.map (·.loyalty_number)) = 2 := by
  constructor
  · decide
  · decide

/-- C4 (amended): for every grouped summary operation over a slice with no
null grouping values and one row per customer, the per-group `customers`
counts of the output sum to the distinct customer count of the slice
provided the number of groups does not exceed the clamped `top_n` (the
`head(top_n)` truncation on line 661 otherwise drops whole groups). -/
theorem c4_summary_customers
    (op : SummaryOp) (top_n : Int) (sort_by : String) (ascending : Bool)
    (df : List SliceRow)
    (hnull : ∀ r ∈ df, (summary_group_col op r).isSome = true)
    (hone : (df.map (·.loyalty_number)).Nodup)
    (hfew : (group_keys op df).length ≤ (clamp_top_n top_n 50).toNat) :
    ((compute_summary op top_n sort_by ascending df).map (·.customers)).sum =
      nunique (df.map (·.loyalty_number)) := by
  have hndk : (group_keys op df).Nodup :=
    (List.perm_insertionSort _ _).nodup_iff.mpr (nodup_dedupFirst _)
  have hcov : ∀ r ∈ df, ∃ k, summary_group_col op r = some k ∧ k ∈ group_keys op df := by
    intro r hr
    have hs := hnull r hr
    cases hcol : summary_group_col op r with
    | none => rw [hcol] at hs; cases hs
    | some k =>
      refine ⟨k, rfl, ?_⟩
      have h1 : k ∈ df.filterMap (summary_group_col op) :=
        List.mem_filterMap.mpr ⟨r, hr, hcol⟩
      exact (List.perm_insertionSort _ _).mem_iff.mpr (mem_dedupFirst.mpr h1)
  have hpart : ((group_keys op df).map (fun k =>
      (df.filter (fun r => summary_group_col op r == some k)).length)).sum =
      df.length :=
    partition_filter_length _ _ hndk df hcov
  have hcust : (((group_keys op df).map (fun k =>
      mkSummaryRow k (df.filter (fun r => summary_group_col op r == some k)))).map
        (·.customers)).sum = df.length := by
    rw [List.map_map]
    have h1 : (((group_keys op df).map (fun k => ((fun x => x.customers) ∘ fun k =>
        mkSummaryRow k (df.filter (fun r => summary_group_col op r == some k))) k))).sum =
        ((group_keys op df).map (fun k =>
          (df.filter (fun r => summary_group_col op r == some k)).length)).sum := by
      apply sum_map_congr
      intro k _
      show nunique ((df.filter (fun r =>
        summary_group_col op r == some k)).map (·.loyalty_number)) = _
      rw [nunique_eq_length (hone.sublist ((List.filter_sublist df).map _)),
        List.length_map]
    rw [h1, hpart]
  have main : ∀ sorted : List SummaryRow,
      sorted.Perm ((group_keys op df).map (fun k =>
        mkSummaryRow k (df.filter (fun r => summary_group_col op r == some k)))) →
      ((sorted.take (clamp_top_n top_n 50).toNat).map (·.customers)).sum =
        nunique (df.map (·.loyalty_number)) := by
    intro sorted hp
    rw [List.take_of_length_le]
    · rw [(hp.map (·.customers)).sum_eq, hcust, nunique_eq_length hone,
        List.length_map]
    · rw [hp.length_eq, List.length_map]
      exact hfew
  unfold compute_summary
  split_ifs <;> exact main _ (List.perm_insertionSort _ _)

/-- C4 (witness): the amended theorem on the two-province slice with the
default `top_n = 10`, where both groups survive and the counts sum to 2. -/
theorem c4_witness :
    ((compute_summary .by_province 10 "avg_churn_score" false exC4df).map
      (·.customers)).sum = nunique (exC4df.map (·.loyalty_number)) :=
  c4_summary_customers .by_province 10 "avg_churn_score" false exC4df
    (by decide) (by decide) (by decide)

/-! Claims C5 and C6: the plan sanitizer. -/

/-- C5: a plan whose operations list holds a well-formed item with a
catalog operation name, a duplicate item with the same name, and an item
with an unknown name sanitizes to a plan with exactly one operation — the
cleaned first valid occurrence (the duplicate and the unknown item are
dropped before any of their parameters are read). -/
theorem c5_sanitize_dedup
    (kvs : List (String × PyVal)) (i1 i2 i3 c1 : PyVal) (op1 op3 : String)
    (hops : lookupKV kvs "operations" = some (.list [i1, i2, i3]))
    (h1 : getOpField i1 = .ok (.str op1))
    (h1a : ALLOWED_OPS.contains op1 = true)
    (h1c : clean_item op1 i1 = .ok c1)
    (h2 : getOpField i2 = .ok (.str op1))
    (h3 : getOpField i3 = .ok (.str op3))
    (h3a : ALLOWED_OPS.contains op3 = false) :
    sanitize_plan (.dict kvs) =
      .ok (.dict [("intent", .str (plan_intent kvs)),
                  ("operations", .list [c1])]) := by
  have h1m : op1 ∈ ALLOWED_OPS := by simpa using h1a
  have h3m : op3 ∉ ALLOWED_OPS := by simpa using h3a
  have l3 : sanitize_loop [i3] [op1] = .ok [] := by
    unfold sanitize_loop
    rw [h3]
    simp [h3m, show sanitize_loop ([] : List PyVal) [op1] = .ok [] from rfl]
  have l2 : sanitize_loop [i2, i3] [op1] = .ok [] := by
    unfold sanitize_loop
    rw [h2]
    simp [l3]
  have hloop : sanitize_loop [i1, i2, i3] [] = .ok [c1] := by
    unfold sanitize_loop
    rw [h1]
    simp [h1m, h1c, l2]
  unfold sanitize_plan
  simp only [hops, hloop]

/-- C5 (witness): the dedup theorem applied to the concrete plan — exactly
the first `kpis_slice` item survives. -/
theorem c5_witness :
    sanitize_plan (.dict exC5kvs) =
      .ok (.dict [("intent", .str (plan_intent exC5kvs)),
                  ("operations", .list [.dict [("op", .str "kpis_slice")]])]) :=
  c5_sanitize_dedup exC5kvs
    (.dict [("op", .str "kpis_slice")])
    (.dict [("op", .str "kpis_slice"), ("top_n", .int 3)])
    (.dict [("op", .str "made_up_op")])
    (.dict [("op", .str "kpis_slice")])
    "kpis_slice" "made_up_op" rfl rfl rfl rfl rfl rfl rfl

/-- C6 (counterexample): on a structurally valid plan whose single
operation item is a truthy non-mapping, `_sanitize_plan` raises
(`"x".get` — a string has no `get` attribute) rather than returning the
default plan, even though zero items survive; likewise an item whose `op`
value is a list raises `TypeError` from the set membership test. -/
theorem c6_counterexample :
    sanitize_plan (.dict [("operations", .list [.str "x"])]) =
      .error "AttributeError" ∧
    sanitize_plan (.dict [("operations", .list [.dict [("op", .list [.str "x"])]])]) =
      .error "TypeError: unhashable type" ∧
    sanitize_plan (.dict [("operations", .list [.str "x"])]) ≠
      .ok build_default_plan := by
  refine ⟨rfl, rfl, ?_⟩
  intro h
  rw [show sanitize_plan (.dict [("operations", .list [.str "x"])]) =
    .error "AttributeError" from rfl] at h
  exact Except.noConfusion h

/-- C6 (amended): a structurally invalid plan (not a mapping with an
`operations` sequence) sanitizes to the hard-coded default plan, and so
does any plan whose item loop completes with zero surviving operations;
a plan whose item loop raises — on a truthy non-mapping item
(`AttributeError`) or on an unhashable `op` value (`TypeError` from the
set membership test) — produces an exception instead. -/
theorem c6_sanitize_default :
    (∀ p : PyVal, has_operations_list p = false →
      sanitize_plan p = .ok build_default_plan) ∧
    (∀ (kvs : List (String × PyVal)) (items : List PyVal),
      lookupKV kvs "operations" = some (.list items) →
      sanitize_loop items [] = .ok [] →
      sanitize_plan (.dict kvs) = .ok build_default_plan) := by
  constructor
  · intro p hp
    cases p with
    | str s => rfl
    | int n => rfl
    | bool b => rfl
    | none => rfl
    | list l => rfl
    | dict kvs =>
      unfold has_operations_list at hp
      cases hl : lookupKV kvs "operations" with
      | none => simp only [sanitize_plan, hl]
      | some v =>
        cases v with
        | str s => simp only [sanitize_plan, hl]
        | int n => simp only [sanitize_plan, hl]
        | bool b => simp only [sanitize_plan, hl]
        | none => simp only [sanitize_plan, hl]
        | dict d => simp only [sanitize_plan, hl]
        | list items =>
          simp only [hl] at hp
          cases hp
  · intro kvs items hl hempty
    simp only [sanitize_plan, hl, hempty]

/-- C6 (witness): the default-plan substitution on a plain-string plan and
on a plan whose only item has an unknown operation name. -/
theorem c6_witness :
    sanitize_plan (.str "not a plan") = .ok build_default_plan ∧
    sanitize_plan (.dict [("operations", .list [.dict [("op", .str "nope")]])]) =
      .ok build_default_plan :=
  ⟨c6_sanitize_default.1 (.str "not a plan") rfl,
   c6_sanitize_default.2 [("operations", .list [.dict [("op", .str "nope")]])]
     [.dict [("op", .str "nope")]] rfl rfl⟩
